import Mathlib

/-!
Shallow embedding of the Neon Racer multiplayer race server
(the per-room authoritative race engine of `server.js`).

Every definition below is a direct translation of the corresponding
JavaScript handler or tick-loop phase.  Client-reported numbers
(positions, distances) and the tuning constants are modelled as exact
rationals; wall-clock timestamps (`Date.now()`) are integers counting
milliseconds; `Math.random()` draws are passed in as an explicit stream
`rand : Nat → ℚ` consumed left to right.
-/

attribute [local semireducible] Rat.mul Rat.add Rat.inv Rat.sub

namespace NeonRacer

/-- Race states, from the RACE_STATE table of the server. -/
inductive RaceState
  | waiting
  | countdown
  | racing
  | paused
  | finished
  deriving DecidableEq, Repr

/-- MIN_PLAYERS_TO_START = 2. -/
def MIN_PLAYERS_TO_START : Nat := 2

/-- DEFAULT_RACE_DISTANCE = 1000 meters. -/
def DEFAULT_RACE_DISTANCE : Int := 1000

/-- COUNTDOWN_SECONDS = 3. -/
def COUNTDOWN_SECONDS : Int := 3

/-- OBSTACLE_SPAWN_INTERVAL = 50 meters between obstacles. -/
def OBSTACLE_SPAWN_INTERVAL : ℚ := 50

/-- OBSTACLE_DESPAWN_DISTANCE = 100 meters behind the last player. -/
def OBSTACLE_DESPAWN_DISTANCE : ℚ := 100

/-- SPAWN_AHEAD_DISTANCE = 300 meters ahead of the furthest player. -/
def SPAWN_AHEAD_DISTANCE : ℚ := 300

/-- PIXELS_PER_METER = 2. -/
def PIXELS_PER_METER : ℚ := 2

/-- BASE_ROAD_WIDTH = 200. -/
def BASE_ROAD_WIDTH : ℚ := 200

/-- MAX_ROAD_WIDTH = 400. -/
def MAX_ROAD_WIDTH : ℚ := 400

/-- ROAD_EXPANSION_INTERVAL = 30000 ms. -/
def ROAD_EXPANSION_INTERVAL : Int := 30000

/-- ROAD_EXPANSION_RATE = 1.1. -/
def ROAD_EXPANSION_RATE : ℚ := 11/10

/-- BASE_GAME_SPEED = 2. -/
def BASE_GAME_SPEED : ℚ := 2

/-- MAX_GAME_SPEED = 20. -/
def MAX_GAME_SPEED : ℚ := 20

/-- SPEED_INCREMENT_PER_TICK = 0.0005. -/
def SPEED_INCREMENT_PER_TICK : ℚ := 1/2000

/-- The fixed palette of player colors. -/
def playerColors : List String :=
  ["#ff6b6b", "#4ecdc4", "#ffe66d", "#95e1d3", "#f38181", "#aa96da", "#fcbad3", "#a8d8ea"]

/-- getPlayerColor picks from the palette by join order, wrapping. -/
def getPlayerColor (index : Nat) : String :=
  playerColors.getD (index % playerColors.length) ""

/-- One entry of a room's `members` array. -/
structure Member where
  id : String
  name : String
  deriving DecidableEq, Repr

/-- Per-player game state, exactly the object built on join. -/
structure Player where
  name : String
  x : ℚ
  startX : ℚ
  worldY : ℚ
  startWorldY : ℚ
  distance : ℚ
  color : String
  stunned : Bool
  stunnedUntil : Int
  finished : Bool
  finishTime : Option Int
  position : Option Nat
  gridPosition : Nat
  deriving DecidableEq, Repr

/-- One obstacle, as created by the spawn loop. -/
structure Obstacle where
  id : Nat
  x : ℚ
  worldY : ℚ
  distance : ℚ
  deriving DecidableEq, Repr

/-- Per-room state, exactly the object built on first join. -/
structure Room where
  members : List Member
  players : List (String × Player)
  obstacles : List Obstacle
  nextObstacleId : Nat
  lastSpawnWorldY : ℚ
  furthestWorldY : ℚ
  roadWidth : ℚ
  gameSpeed : ℚ
  lastExpansionTime : Int
  createdAt : Int
  creatorId : String
  raceState : RaceState
  raceStartTime : Option Int
  countdownStartTime : Option Int
  countdownValue : Int
  finishOrder : List String
  raceDistance : ℚ
  pausedAt : Option Int
  deriving DecidableEq, Repr

/-- One leaderboard row of the per-tick snapshot. -/
structure LBEntry where
  name : String
  distance : ℚ
  finished : Bool
  position : Option Nat
  deriving DecidableEq, Repr

/-- The per-tick game-state snapshot broadcast to the room. -/
structure Snapshot where
  players : List (String × Player)
  obstacles : List Obstacle
  leaderboard : List LBEntry
  roadWidth : ℚ
  gameSpeed : ℚ
  raceState : RaceState
  raceDistance : ℚ
  raceTime : Int
  deriving DecidableEq, Repr

/-- Destination of an outbound emit: socket.emit (sender only),
io.to(room).emit (everyone in the room), or socket.to(room).emit
(everyone but the sender). -/
inductive Target
  | sender
  | toRoom
  | toOthers
  deriving DecidableEq, Repr

/-- Outbound events produced by the server handlers and tick loop. -/
inductive ServerEvent
  | error (msg : String)
  | joined (roomCode name : String) (members : List Member) (playerId : String)
      (playerColor : String) (isCreator : Bool) (raceState : RaceState)
      (raceDistance : ℚ) (canStart : Bool) (playerCount : Nat)
  | userJoined (name : String) (members : List Member) (playerCount : Nat) (canStart : Bool)
  | raceDistanceChanged (distance : ℚ)
  | raceCountdown (countdown : Int) (message : String)
  | racePaused (message : String)
  | raceResumed (message : String)
  | playerFinished (name : String) (position : Nat) (time : Int)
  | raceFinished (results : List (Nat × Option (String × Option Int)))
  | gameRestarted (message : String) (raceState : RaceState) (canStart : Bool) (playerCount : Nat)
  | raceStarted (raceDistance : ℚ) (startTime : Int)
  | userLeft (name : String) (members : List Member)
  | gameState (snap : Snapshot)
  deriving DecidableEq, Repr

/-- An outbound emit: a target and an event. -/
structure Emit where
  target : Target
  event : ServerEvent
  deriving DecidableEq, Repr

/-- Lookup in the `players` object (a JS object keyed by socket id,
kept in insertion order). -/
def findPlayer (ps : List (String × Player)) (id : String) : Option Player :=
  match ps with
  | [] => none
  | (k, v) :: rest => if k = id then some v else findPlayer rest id

/-- In-place mutation of an existing key of the `players` object. -/
def updatePlayer (ps : List (String × Player)) (id : String) (v : Player) :
    List (String × Player) :=
  match ps with
  | [] => []
  | (k, p) :: rest =>
    if k = id then (k, v) :: updatePlayer rest id v else (k, p) :: updatePlayer rest id v

/-- Assignment `players[id] = v` on a JS object: overwrite if present,
append if absent. -/
def setPlayer (ps : List (String × Player)) (id : String) (v : Player) :
    List (String × Player) :=
  match ps with
  | [] => [(id, v)]
  | (k, p) :: rest => if k = id then (k, v) :: rest else (k, p) :: setPlayer rest id v

/-- The fresh room object built when the first member joins. -/
def initRoom (creator : String) (now : Int) : Room :=
  { members := []
    players := []
    obstacles := []
    nextObstacleId := 0
    lastSpawnWorldY := 0
    furthestWorldY := 0
    roadWidth := BASE_ROAD_WIDTH
    gameSpeed := BASE_GAME_SPEED
    lastExpansionTime := now
    createdAt := now
    creatorId := creator
    raceState := RaceState.waiting
    raceStartTime := none
    countdownStartTime := none
    countdownValue := 0
    finishOrder := []
    raceDistance := (DEFAULT_RACE_DISTANCE : ℚ)
    pausedAt := none }

/-- Handler of `join-room`.  `existing` is the room stored under the code
before the event (`none` when the code is fresh, in which case the sender
becomes the creator). -/
def joinRoom (existing : Option Room) (sender roomCode name : String) (now : Int) :
    Option Room × List Emit :=
  if roomCode = "" ∨ name = "" then
    (existing, [⟨.sender, .error "Room code and name are required"⟩])
  else
    let room := match existing with
      | some r => r
      | none => initRoom sender now
    if room.raceState = .racing ∨ room.raceState = .countdown ∨ room.raceState = .paused then
      (some room, [⟨.sender, .error "Race already in progress. Wait for it to finish."⟩])
    else
      let members := room.members ++ [⟨sender, name⟩]
      let playerIndex := members.length - 1
      let gridRow : Nat := playerIndex / 2
      let gridCol : Nat := playerIndex % 2
      let startX : ℚ := if gridCol = 0 then (7 : ℚ)/20 else (13 : ℚ)/20
      let startWorldY : ℚ := (gridRow : ℚ) * 60
      let newPlayer : Player :=
        { name := name
          x := startX
          startX := startX
          worldY := startWorldY
          startWorldY := startWorldY
          distance := 0
          color := getPlayerColor playerIndex
          stunned := false
          stunnedUntil := 0
          finished := false
          finishTime := none
          position := none
          gridPosition := playerIndex + 1 }
      let players := setPlayer room.players sender newPlayer
      let room1 := { room with members := members, players := players }
      let playerCount := players.length
      let canStart := decide (MIN_PLAYERS_TO_START ≤ playerCount)
      (some room1,
        [⟨.sender, .joined roomCode name members sender newPlayer.color
            (decide (room1.creatorId = sender)) room1.raceState room1.raceDistance
            canStart playerCount⟩,
         ⟨.toOthers, .userJoined name members playerCount canStart⟩])

/-- Handler of `set-race-distance` (`d = none` models a NaN `parseInt`). -/
def setRaceDistance (room : Room) (sender : String) (d : Option Int) : Room × List Emit :=
  if room.creatorId ≠ sender then
    (room, [⟨.sender, .error "Only the room creator can set race distance"⟩])
  else if room.raceState ≠ .waiting then
    (room, [⟨.sender, .error "Can only set distance before race starts"⟩])
  else
    let distance : Int := match d with
      | none => DEFAULT_RACE_DISTANCE
      | some v => if v = 0 then DEFAULT_RACE_DISTANCE else v
    let rd : Int := max 100 (min 10000 distance)
    ({ room with raceDistance := (rd : ℚ) },
      [⟨.toRoom, .raceDistanceChanged (rd : ℚ)⟩])

/-- Handler of `start-race`. -/
def startRace (room : Room) (sender : String) (now : Int) : Room × List Emit :=
  if room.creatorId ≠ sender then
    (room, [⟨.sender, .error "Only the room creator can start the race"⟩])
  else if room.players.length < MIN_PLAYERS_TO_START then
    (room, [⟨.sender, .error "Need at least 2 players to start"⟩])
  else if room.raceState ≠ .waiting then
    (room, [⟨.sender, .error "Race already started"⟩])
  else
    ({ room with
        raceState := .countdown
        countdownStartTime := some now
        countdownValue := COUNTDOWN_SECONDS },
      [⟨.toRoom, .raceCountdown COUNTDOWN_SECONDS "Race starting!"⟩])

/-- Handler of `toggle-pause`. -/
def togglePause (room : Room) (sender : String) (now : Int) : Room × List Emit :=
  if room.creatorId ≠ sender then
    (room, [⟨.sender, .error "Only the room creator can pause the race"⟩])
  else if room.raceState = .racing then
    ({ room with raceState := .paused, pausedAt := some now },
      [⟨.toRoom, .racePaused "Race paused by host"⟩])
  else if room.raceState = .paused then
    let pauseDuration := now - room.pausedAt.getD 0
    ({ room with
        raceStartTime := some (room.raceStartTime.getD 0 + pauseDuration)
        raceState := .racing
        pausedAt := none },
      [⟨.toRoom, .raceResumed "Race resumed!"⟩])
  else (room, [])

/-- Payload of a `player-update` event (`worldY = none` models the
`undefined` check, `stunned = none` models a missing field). -/
structure UpdData where
  x : ℚ
  worldY : Option ℚ
  distance : ℚ
  stunned : Option Bool
  deriving DecidableEq, Repr

/-- Final-standings payload of the `race-finished` event. -/
def raceResults (ps : List (String × Player)) (order : List String) :
    List (Nat × Option (String × Option Int)) :=
  order.enum.map fun x =>
    (x.1 + 1, (findPlayer ps x.2).map fun p => (p.name, p.finishTime))

/-- Handler of `player-update`. -/
def playerUpdate (room : Room) (sender : String) (now : Int) (data : UpdData) :
    Room × List Emit :=
  match findPlayer room.players sender with
  | none => (room, [])
  | some player =>
    if room.raceState = .racing ∧ player.finished = false then
      let p1 : Player :=
        { player with
            x := data.x
            worldY := data.worldY.getD player.worldY
            distance := data.distance
            stunned := data.stunned.getD false }
      if p1.distance ≥ room.raceDistance ∧ p1.finished = false then
        let order := room.finishOrder ++ [sender]
        let p2 : Player :=
          { p1 with
              finished := true
              finishTime := some (now - room.raceStartTime.getD 0)
              position := some order.length }
        let room1 := { room with
            players := updatePlayer room.players sender p2
            finishOrder := order }
        let e1 : Emit :=
          ⟨.toRoom, .playerFinished p2.name order.length (now - room.raceStartTime.getD 0)⟩
        if room1.players.all fun kv => kv.2.finished then
          ({ room1 with raceState := .finished },
            [e1, ⟨.toRoom, .raceFinished (raceResults room1.players order)⟩])
        else (room1, [e1])
      else
        ({ room with players := updatePlayer room.players sender p1 }, [])
    else (room, [])

/-- Handler of `restart-game`. -/
def restartGame (room : Room) (sender : String) (now : Int) : Room × List Emit :=
  if room.creatorId ≠ sender then
    (room, [⟨.sender, .error "Only the room creator can restart the game"⟩])
  else
    let players := room.players.enum.map fun x =>
      let i := x.1
      let gridRow : Nat := i / 2
      let gridCol : Nat := i % 2
      let startX : ℚ := if gridCol = 0 then (7 : ℚ)/20 else (13 : ℚ)/20
      let startWorldY : ℚ := (gridRow : ℚ) * 60
      (x.2.1,
        { x.2.2 with
            worldY := startWorldY
            startWorldY := startWorldY
            distance := 0
            x := startX
            startX := startX
            stunned := false
            stunnedUntil := 0
            finished := false
            finishTime := none
            position := none
            gridPosition := i + 1 })
    let room1 := { room with
        players := players
        obstacles := []
        nextObstacleId := 0
        lastSpawnWorldY := 0
        furthestWorldY := 0
        roadWidth := BASE_ROAD_WIDTH
        gameSpeed := BASE_GAME_SPEED
        lastExpansionTime := now
        raceState := .waiting
        raceStartTime := none
        countdownStartTime := none
        countdownValue := 0
        finishOrder := [] }
    let playerCount := room1.players.length
    let canStart := decide (MIN_PLAYERS_TO_START ≤ playerCount)
    (room1,
      [⟨.toRoom, .gameRestarted "Game restarted by host!" RaceState.waiting canStart playerCount⟩])

/-- Handler of `collision`. -/
def collision (room : Room) (sender : String) (now : Int) : Room × List Emit :=
  match findPlayer room.players sender with
  | none => (room, [])
  | some p =>
    ({ room with players :=
        updatePlayer room.players sender { p with stunned := true, stunnedUntil := now + 2000 } },
      [])

/-- Handler of `disconnect` (returns `none` when the emptied room is
deleted from the store). -/
def disconnect (room : Room) (sender senderName : String) : Option Room × List Emit :=
  let members := room.members.filter fun m => m.id ≠ sender
  let room1 := { room with
      members := members
      players := room.players.filter fun kv => kv.1 ≠ sender }
  let e : Emit := ⟨.toRoom, .userLeft senderName members⟩
  if members.length = 0 then (none, [e]) else (some room1, [e])

/-- Countdown phase of the tick: emit countdown changes and advance
Countdown to Racing (resetting `gameSpeed` to base) when the three
seconds have elapsed. -/
def tickCountdown (room : Room) (now : Int) : Room × List Emit :=
  if room.raceState = .countdown then
    let elapsed := now - room.countdownStartTime.getD 0
    let newCountdown := COUNTDOWN_SECONDS - elapsed.fdiv 1000
    let step1 : Room × List Emit :=
      if newCountdown ≠ room.countdownValue ∧ newCountdown ≥ 0 then
        ({ room with countdownValue := newCountdown },
          [⟨.toRoom, .raceCountdown newCountdown
              (if newCountdown > 0 then toString newCountdown else "GO!")⟩])
      else (room, [])
    if elapsed ≥ COUNTDOWN_SECONDS * 1000 then
      ({ step1.1 with
          raceState := .racing
          raceStartTime := some now
          gameSpeed := BASE_GAME_SPEED },
        step1.2 ++ [⟨.toRoom, .raceStarted step1.1.raceDistance now⟩])
    else step1
  else (room, [])

/-- Stun expiry inside the racing phase of the tick. -/
def updateStuns (ps : List (String × Player)) (now : Int) : List (String × Player) :=
  ps.map fun kv =>
    if kv.2.stunned ∧ now ≥ kv.2.stunnedUntil then (kv.1, { kv.2 with stunned := false })
    else kv

/-- Racing phase of the tick: stun expiry plus the dynamic-difficulty
controller (speed ramp each tick, road expansion each 30 s interval). -/
def tickRacing (room : Room) (now : Int) : Room :=
  if room.raceState = .racing then
    let r1 := { room with players := updateStuns room.players now }
    let r2 :=
      if r1.gameSpeed < MAX_GAME_SPEED then
        { r1 with gameSpeed := min (r1.gameSpeed + SPEED_INCREMENT_PER_TICK) MAX_GAME_SPEED }
      else r1
    if now - r2.lastExpansionTime ≥ ROAD_EXPANSION_INTERVAL then
      { r2 with
          lastExpansionTime := now
          roadWidth := min (r2.roadWidth * ROAD_EXPANSION_RATE) MAX_ROAD_WIDTH }
    else r2
  else room

/-- Loop body of the world-bounds scan: fold one player into the running
`(minWorldY, maxWorldY, hasPlayers)` accumulator. -/
def worldBoundsStep (acc : ℚ × ℚ × Bool) (kv : String × Player) : ℚ × ℚ × Bool :=
  let wy := kv.2.worldY
  if acc.2.2 then (min acc.1 wy, max acc.2.1 wy, true) else (wy, wy, true)

/-- Scan of all players computing `(minWorldY, maxWorldY, hasPlayers)`,
exactly as the tick loop does. -/
def worldBounds (ps : List (String × Player)) : ℚ × ℚ × Bool :=
  ps.foldl worldBoundsStep (0, 0, false)

/-- Lateral placement of a spawned obstacle: a zone roll then a position
roll inside the chosen zone (left edge 25%, right edge 25%, center 50%). -/
def obstacleX (zoneRoll posRoll : ℚ) : ℚ :=
  if zoneRoll < 1/4 then posRoll * (23/100) + 1/50
  else if zoneRoll < 1/2 then posRoll * (23/100) + 3/4
  else posRoll * (1/2) + 1/4

/-- Exact iteration count of the JS `while (lastSpawnWorldY > spawnThreshold)`
loop, used as structural fuel for `spawnLoop`. -/
def spawnFuel (cursor threshold step : ℚ) : Nat :=
  (Int.ceil ((cursor - threshold) / step)).toNat

/-- The obstacle spawn loop: while the cursor is above the threshold,
step it down and create one obstacle at each new cursor position.
Returns the final cursor, the next obstacle id, the next random index,
and the spawned obstacles in spawn order. -/
def spawnLoop (rand : Nat → ℚ) (threshold step : ℚ) :
    Nat → ℚ → Nat → Nat → ℚ × Nat × Nat × List Obstacle
  | 0, cursor, nid, ri => (cursor, nid, ri, [])
  | fuel + 1, cursor, nid, ri =>
    if cursor > threshold then
      let c := cursor - step
      let o : Obstacle :=
        { id := nid, x := obstacleX (rand ri) (rand (ri + 1)), worldY := c,
          distance := |c| / PIXELS_PER_METER }
      let rest := spawnLoop rand threshold step fuel c (nid + 1) (ri + 2)
      (rest.1, rest.2.1, rest.2.2.1, o :: rest.2.2.2)
    else (cursor, nid, ri, [])

/-- Obstacle phase of the tick: spawn ahead of the leader and drop every
obstacle behind the trailer, both only while Racing. -/
def tickObstacles (room : Room) (rand : Nat → ℚ) (minW maxW : ℚ) (hasPlayers : Bool) : Room :=
  if room.raceState = .racing then
    let spawnAheadPixels := SPAWN_AHEAD_DISTANCE * PIXELS_PER_METER
    let spawnIntervalPixels := OBSTACLE_SPAWN_INTERVAL * PIXELS_PER_METER
    let cursor0 :=
      if room.lastSpawnWorldY = 0 ∧ hasPlayers then minW - spawnIntervalPixels
      else room.lastSpawnWorldY
    let spawnThreshold := minW - spawnAheadPixels
    let res := spawnLoop rand spawnThreshold spawnIntervalPixels
      (spawnFuel cursor0 spawnThreshold spawnIntervalPixels) cursor0 room.nextObstacleId 0
    let despawnBufferPixels := OBSTACLE_DESPAWN_DISTANCE * PIXELS_PER_METER
    { room with
        lastSpawnWorldY := res.1
        nextObstacleId := res.2.1
        obstacles := (room.obstacles ++ res.2.2.2).filter fun obs =>
          obs.worldY < maxW + despawnBufferPixels }
  else room

/-- The leaderboard comparator of the tick loop, as the JS numeric
comparator value. -/
def lbCmp (a b : LBEntry) : ℚ :=
  if a.finished ∧ ¬ b.finished then -1
  else if ¬ a.finished ∧ b.finished then 1
  else if a.finished ∧ b.finished then
    ((a.position.getD 0 : Nat) : ℚ) - ((b.position.getD 0 : Nat) : ℚ)
  else b.distance - a.distance

/-- Insert into a comparator-sorted list. -/
def insertLB (x : LBEntry) : List LBEntry → List LBEntry
  | [] => [x]
  | y :: ys => if lbCmp x y ≤ 0 then x :: y :: ys else y :: insertLB x ys

/-- Comparator sort of leaderboard entries. -/
def sortLB : List LBEntry → List LBEntry
  | [] => []
  | x :: xs => insertLB x (sortLB xs)

/-- The top-5 leaderboard built every tick. -/
def leaderboard (ps : List (String × Player)) : List LBEntry :=
  (sortLB (ps.map fun kv =>
    { name := kv.2.name, distance := kv.2.distance, finished := kv.2.finished,
      position := kv.2.position })).take 5

/-- The `raceTime` field of the snapshot:
`room.raceStartTime ? now - room.raceStartTime : 0`. -/
def raceTimeField (raceStartTime : Option Int) (now : Int) : Int :=
  match raceStartTime with
  | some t => if t = 0 then 0 else now - t
  | none => 0

/-- The per-tick snapshot object. -/
def mkSnapshot (room : Room) (now : Int) : Snapshot :=
  { players := room.players
    obstacles := room.obstacles
    leaderboard := leaderboard room.players
    roadWidth := room.roadWidth
    gameSpeed := if room.raceState = .racing then room.gameSpeed else 0
    raceState := room.raceState
    raceDistance := room.raceDistance
    raceTime := raceTimeField room.raceStartTime now }

/-- One iteration of the 30 TPS broadcast loop for one room: countdown
phase, racing phase, world-bounds scan, obstacle phase, snapshot. -/
def tickRoom (room : Room) (now : Int) (rand : Nat → ℚ) : Room × List Emit :=
  if room.members.length = 0 then (room, [])
  else
    let step1 := tickCountdown room now
    let r2 := tickRacing step1.1 now
    let b := worldBounds r2.players
    let r3 := tickObstacles r2 rand b.1 b.2.1 b.2.2
    (r3, step1.2 ++ [⟨.toRoom, .gameState (mkSnapshot r3 now)⟩])

/-- Snapshots among the emits of one tick (the tick broadcasts exactly one
when the room has members). -/
def tickSnapshots (room : Room) (now : Int) (rand : Nat → ℚ) : List Snapshot :=
  (tickRoom room now rand).2.filterMap fun e =>
    match e.event with
    | .gameState snap => some snap
    | _ => none

/-- Folding a list of `player-update` events over a room. -/
def applyPlayerUpdates (room : Room) (evs : List (String × Int × UpdData)) : Room :=
  evs.foldl (fun r e => (playerUpdate r e.1 e.2.1 e.2.2).1) room

/-- Invariant of the spec: a finished room only contains finished players. -/
def allFinishedInv (room : Room) : Prop :=
  room.raceState = .finished → ∀ kv ∈ room.players, kv.2.finished = true

/-- One slot of the finishing-order invariant: if the player at index `i`
of `finishOrder` is still present, it is finished and carries the 1-based
position `i + 1`. -/
def finishOk (ps : List (String × Player)) (id : String) (i : Nat) : Bool :=
  match findPlayer ps id with
  | none => true
  | some p => p.finished && decide (p.position = some (i + 1))

/-- Finishing-order invariant: `finishOrder` has no repeats and its
entries carry exactly the positions `1..k` in order. -/
def finishInv (room : Room) : Prop :=
  room.finishOrder.Nodup ∧
  ∀ i (h : i < room.finishOrder.length),
    finishOk room.players (room.finishOrder.get ⟨i, h⟩) i = true

/-- Constant-zero random stream used for concrete runs. -/
def randZero : Nat → ℚ := fun _ => 0

/-- A freshly joined player on the first grid slot. -/
def playerA : Player :=
  { name := "Alice", x := (7 : ℚ)/20, startX := (7 : ℚ)/20, worldY := 0, startWorldY := 0,
    distance := 0, color := getPlayerColor 0, stunned := false, stunnedUntil := 0,
    finished := false, finishTime := none, position := none, gridPosition := 1 }

/-- A two-player room mid-race (created by "A", race started at 10000 ms). -/
def roomRacing : Room :=
  { members := [⟨"A", "Alice"⟩, ⟨"B", "Bob"⟩]
    players := [("A", playerA),
      ("B", { playerA with
        name := "Bob"
        x := (13 : ℚ)/20
        startX := (13 : ℚ)/20
        gridPosition := 2
        color := getPlayerColor 1 })]
    obstacles := [{ id := 0, x := 1/2, worldY := -100, distance := 50 }]
    nextObstacleId := 1
    lastSpawnWorldY := 0
    furthestWorldY := 0
    roadWidth := BASE_ROAD_WIDTH
    gameSpeed := BASE_GAME_SPEED
    lastExpansionTime := 10000
    createdAt := 0
    creatorId := "A"
    raceState := RaceState.racing
    raceStartTime := some 10000
    countdownStartTime := some 6000
    countdownValue := 0
    finishOrder := []
    raceDistance := 1000
    pausedAt := none }

/-- A one-player room whose race has finished, with a stale obstacle
lying far behind the only player. -/
def roomFinished : Room :=
  { roomRacing with
      members := [⟨"A", "Alice"⟩]
      players := [("A", { playerA with
        distance := 1000
        finished := true
        finishTime := some 20000
        position := some 1 })]
      obstacles := [{ id := 7, x := 1/2, worldY := 1000, distance := 500 }]
      raceState := RaceState.finished
      finishOrder := ["A"] }

/-- The room stored after a late join into `roomFinished`. -/
def roomJoinedAfterFinish : Room :=
  ((joinRoom (some roomFinished) "B" "ROOM" "Bob" 30000).1).getD (initRoom "" 0)

/-- A two-player waiting room (creator "A"). -/
def roomWaiting : Room :=
  { roomRacing with
      obstacles := []
      nextObstacleId := 0
      raceState := RaceState.waiting
      raceStartTime := none
      countdownStartTime := none }

/-- The racing room with progressed difficulty, player A leading at 500 m. -/
def roomMid : Room :=
  { roomRacing with
      gameSpeed := 5
      roadWidth := 220
      players := [("A", { playerA with distance := 500, worldY := -1000 }),
        ("B", { playerA with
          name := "Bob"
          distance := 300
          worldY := -600
          gridPosition := 2 })] }

/-- The racing room right after both players were driven backward to
`worldY = 1000` by client updates following the first spawning tick. -/
def roomBackward : Room :=
  (playerUpdate
    ((playerUpdate ((tickRoom roomRacing 10033 randZero).1) "A" 10050
      { x := 1/2, worldY := some 1000, distance := 400, stunned := some false }).1)
    "B" 10055 { x := 1/2, worldY := some 1000, distance := 400, stunned := some false }).1

instance (room : Room) : Decidable (allFinishedInv room) := by
  unfold allFinishedInv; infer_instance

instance (room : Room) : Decidable (finishInv room) := by
  unfold finishInv; exact instDecidableAnd

theorem findPlayer_updatePlayer_self (ps : List (String × Player)) (id : String) (v : Player) :
    findPlayer (updatePlayer ps id v) id = (findPlayer ps id).map fun _ => v := by
  induction ps with
  | nil => rfl
  | cons kv rest ih =>
    obtain ⟨k, p⟩ := kv
    by_cases h : k = id
    · subst h; simp [findPlayer, updatePlayer]
    · simpa [findPlayer, updatePlayer, h] using ih

theorem findPlayer_updatePlayer_ne (ps : List (String × Player)) (id j : String) (v : Player)
    (h : j ≠ id) : findPlayer (updatePlayer ps id v) j = findPlayer ps j := by
  induction ps with
  | nil => rfl
  | cons kv rest ih =>
    obtain ⟨k, p⟩ := kv
    by_cases hk : k = id
    · subst hk
      have hkj : k ≠ j := fun hh => h hh.symm
      simpa [findPlayer, updatePlayer, hkj] using ih
    · by_cases hkj : k = j
      · simp [findPlayer, updatePlayer, hk, hkj, h]
      · simpa [findPlayer, updatePlayer, hk, hkj] using ih

theorem updatePlayer_updatePlayer (ps : List (String × Player)) (id : String) (v w : Player) :
    updatePlayer (updatePlayer ps id v) id w = updatePlayer ps id w := by
  induction ps with
  | nil => rfl
  | cons kv rest ih =>
    obtain ⟨k, p⟩ := kv
    by_cases h : k = id
    · subst h; simp [updatePlayer, ih]
    · simp [updatePlayer, h, ih]

theorem tickCountdown_not_countdown (room : Room) (now : Int)
    (h : room.raceState ≠ .countdown) : tickCountdown room now = (room, []) := by
  unfold tickCountdown
  rw [if_neg h]

theorem tickCountdown_roadWidth (room : Room) (now : Int) :
    (tickCountdown room now).1.roadWidth = room.roadWidth := by
  unfold tickCountdown; dsimp only; repeat' split
  all_goals rfl

theorem tickCountdown_obstacles (room : Room) (now : Int) :
    (tickCountdown room now).1.obstacles = room.obstacles := by
  unfold tickCountdown; dsimp only; repeat' split
  all_goals rfl

theorem tickCountdown_members (room : Room) (now : Int) :
    (tickCountdown room now).1.members = room.members := by
  unfold tickCountdown; dsimp only; repeat' split
  all_goals rfl

theorem tickCountdown_players (room : Room) (now : Int) :
    (tickCountdown room now).1.players = room.players := by
  unfold tickCountdown; dsimp only; repeat' split
  all_goals rfl

theorem tickCountdown_gameSpeed_cases (room : Room) (now : Int) :
    (tickCountdown room now).1.gameSpeed = room.gameSpeed ∨
    (tickCountdown room now).1.gameSpeed = BASE_GAME_SPEED := by
  unfold tickCountdown; dsimp only; repeat' split
  all_goals simp

theorem tickCountdown_raceState_cases (room : Room) (now : Int) :
    (tickCountdown room now).1.raceState = room.raceState ∨
    (tickCountdown room now).1.raceState = .racing := by
  unfold tickCountdown; dsimp only; repeat' split
  all_goals simp

theorem tickRacing_raceState (room : Room) (now : Int) :
    (tickRacing room now).raceState = room.raceState := by
  unfold tickRacing; dsimp only; repeat' split
  all_goals rfl

theorem tickRacing_raceStartTime (room : Room) (now : Int) :
    (tickRacing room now).raceStartTime = room.raceStartTime := by
  unfold tickRacing; dsimp only; repeat' split
  all_goals rfl

theorem tickRacing_members (room : Room) (now : Int) :
    (tickRacing room now).members = room.members := by
  unfold tickRacing; dsimp only; repeat' split
  all_goals rfl

theorem tickRacing_obstacles (room : Room) (now : Int) :
    (tickRacing room now).obstacles = room.obstacles := by
  unfold tickRacing; dsimp only; repeat' split
  all_goals rfl

theorem tickRacing_players_racing (room : Room) (now : Int) (h : room.raceState = .racing) :
    (tickRacing room now).players = updateStuns room.players now := by
  unfold tickRacing
  rw [if_pos h]; dsimp only; repeat' split
  all_goals rfl

theorem tickRacing_players_not_racing (room : Room) (now : Int)
    (h : room.raceState ≠ .racing) : tickRacing room now = room := by
  unfold tickRacing
  rw [if_neg h]

theorem tickObstacles_raceState (room : Room) (rand : Nat → ℚ) (a b : ℚ) (hp : Bool) :
    (tickObstacles room rand a b hp).raceState = room.raceState := by
  unfold tickObstacles; split <;> rfl

theorem tickObstacles_raceStartTime (room : Room) (rand : Nat → ℚ) (a b : ℚ) (hp : Bool) :
    (tickObstacles room rand a b hp).raceStartTime = room.raceStartTime := by
  unfold tickObstacles; split <;> rfl

theorem tickObstacles_gameSpeed (room : Room) (rand : Nat → ℚ) (a b : ℚ) (hp : Bool) :
    (tickObstacles room rand a b hp).gameSpeed = room.gameSpeed := by
  unfold tickObstacles; split <;> rfl

theorem tickObstacles_roadWidth (room : Room) (rand : Nat → ℚ) (a b : ℚ) (hp : Bool) :
    (tickObstacles room rand a b hp).roadWidth = room.roadWidth := by
  unfold tickObstacles; split <;> rfl

theorem tickObstacles_players (room : Room) (rand : Nat → ℚ) (a b : ℚ) (hp : Bool) :
    (tickObstacles room rand a b hp).players = room.players := by
  unfold tickObstacles; split <;> rfl

theorem tickObstacles_not_racing (room : Room) (rand : Nat → ℚ) (a b : ℚ) (hp : Bool)
    (h : room.raceState ≠ .racing) : tickObstacles room rand a b hp = room := by
  unfold tickObstacles
  rw [if_neg h]

theorem tickObstacles_obstacles_racing (room : Room) (rand : Nat → ℚ) (a b : ℚ) (hp : Bool)
    (h : room.raceState = .racing) :
    (tickObstacles room rand a b hp).obstacles =
      (room.obstacles ++
        (spawnLoop rand (a - SPAWN_AHEAD_DISTANCE * PIXELS_PER_METER)
          (OBSTACLE_SPAWN_INTERVAL * PIXELS_PER_METER)
          (spawnFuel
            (if room.lastSpawnWorldY = 0 ∧ hp then a - OBSTACLE_SPAWN_INTERVAL * PIXELS_PER_METER
             else room.lastSpawnWorldY)
            (a - SPAWN_AHEAD_DISTANCE * PIXELS_PER_METER)
            (OBSTACLE_SPAWN_INTERVAL * PIXELS_PER_METER))
          (if room.lastSpawnWorldY = 0 ∧ hp then a - OBSTACLE_SPAWN_INTERVAL * PIXELS_PER_METER
           else room.lastSpawnWorldY)
          room.nextObstacleId 0).2.2.2).filter
        (fun obs => obs.worldY < b + OBSTACLE_DESPAWN_DISTANCE * PIXELS_PER_METER) := by
  unfold tickObstacles
  rw [if_pos h]

theorem worldBoundsStep_has (acc : ℚ × ℚ × Bool) (kv : String × Player) :
    (worldBoundsStep acc kv).2.2 = true := by
  unfold worldBoundsStep; dsimp only; split <;> rfl

theorem foldl_worldBoundsStep_has :
    ∀ (l : List (String × Player)) (acc : ℚ × ℚ × Bool), acc.2.2 = true →
      (l.foldl worldBoundsStep acc).2.2 = true
  | [], _, h => h
  | kv :: rest, acc, _ => foldl_worldBoundsStep_has rest _ (worldBoundsStep_has acc kv)

theorem worldBounds_has (ps : List (String × Player)) (h : ps ≠ []) :
    (worldBounds ps).2.2 = true := by
  cases ps with
  | nil => exact absurd rfl h
  | cons kv rest => exact foldl_worldBoundsStep_has rest _ (worldBoundsStep_has _ kv)

theorem worldBoundsStep_le (acc : ℚ × ℚ × Bool) (kv : String × Player)
    (h : acc.2.2 = true → acc.1 ≤ acc.2.1) :
    (worldBoundsStep acc kv).1 ≤ (worldBoundsStep acc kv).2.1 := by
  by_cases h2 : acc.2.2 = true
  · simp only [worldBoundsStep, h2, if_true]
    exact le_trans (min_le_left _ _) (le_trans (h h2) (le_max_left _ _))
  · simp [worldBoundsStep, h2]

theorem foldl_worldBoundsStep_le :
    ∀ (l : List (String × Player)) (acc : ℚ × ℚ × Bool),
      (acc.2.2 = true → acc.1 ≤ acc.2.1) →
      (l.foldl worldBoundsStep acc).2.2 = true →
      (l.foldl worldBoundsStep acc).1 ≤ (l.foldl worldBoundsStep acc).2.1
  | [], _, h, h2 => h h2
  | kv :: rest, acc, h, h2 =>
    foldl_worldBoundsStep_le rest _ (fun _ => worldBoundsStep_le acc kv h) h2

theorem worldBounds_min_le_max (ps : List (String × Player)) (h : ps ≠ []) :
    (worldBounds ps).1 ≤ (worldBounds ps).2.1 := by
  cases ps with
  | nil => exact absurd rfl h
  | cons kv rest =>
    exact foldl_worldBoundsStep_le rest _
      (fun _ => worldBoundsStep_le (0, 0, false) kv (by simp))
      (foldl_worldBoundsStep_has rest _ (worldBoundsStep_has _ kv))

theorem worldBounds_updateStuns (ps : List (String × Player)) (now : Int) :
    worldBounds (updateStuns ps now) = worldBounds ps := by
  unfold worldBounds updateStuns
  rw [List.foldl_map]
  apply List.foldl_ext
  intro acc kv _
  unfold worldBoundsStep
  split <;> rfl

theorem worldBounds_tickRacing (room : Room) (now : Int) :
    worldBounds (tickRacing room now).players = worldBounds room.players := by
  by_cases h : room.raceState = .racing
  · rw [tickRacing_players_racing room now h, worldBounds_updateStuns]
  · rw [tickRacing_players_not_racing room now h]

theorem tickRoom_not_countdown_eq (room : Room) (now : Int) (rand : Nat → ℚ)
    (hm : room.members.length ≠ 0) (hs : room.raceState ≠ .countdown) :
    tickRoom room now rand =
      (tickObstacles (tickRacing room now) rand
          (worldBounds (tickRacing room now).players).1
          (worldBounds (tickRacing room now).players).2.1
          (worldBounds (tickRacing room now).players).2.2,
        [⟨.toRoom, .gameState (mkSnapshot
          (tickObstacles (tickRacing room now) rand
            (worldBounds (tickRacing room now).players).1
            (worldBounds (tickRacing room now).players).2.1
            (worldBounds (tickRacing room now).players).2.2) now)⟩]) := by
  unfold tickRoom
  rw [if_neg hm]
  dsimp only
  rw [tickCountdown_not_countdown room now hs]
  rfl

/-- Claim C1: a non-host start-race, toggle-pause, restart-game or
set-race-distance event leaves the room unchanged (hence its raceState,
roadWidth, gameSpeed, raceDistance and finishOrder) and emits exactly one
error notification to the sender. -/
theorem authority_enforcement (room : Room) (sender : String) (now : Int) (d : Option Int)
    (h : room.creatorId ≠ sender) :
    startRace room sender now =
      (room, [⟨.sender, .error "Only the room creator can start the race"⟩]) ∧
    togglePause room sender now =
      (room, [⟨.sender, .error "Only the room creator can pause the race"⟩]) ∧
    restartGame room sender now =
      (room, [⟨.sender, .error "Only the room creator can restart the game"⟩]) ∧
    setRaceDistance room sender d =
      (room, [⟨.sender, .error "Only the room creator can set race distance"⟩]) := by
  refine ⟨?_, ?_, ?_, ?_⟩ <;> simp [startRace, togglePause, restartGame, setRaceDistance, h]

/-- Witness for C1 at a concrete racing room and non-host sender. -/
theorem authority_enforcement_witness :
    roomRacing.creatorId ≠ "B" ∧
    (startRace roomRacing "B" 1 =
      (roomRacing, [⟨.sender, .error "Only the room creator can start the race"⟩]) ∧
    togglePause roomRacing "B" 1 =
      (roomRacing, [⟨.sender, .error "Only the room creator can pause the race"⟩]) ∧
    restartGame roomRacing "B" 1 =
      (roomRacing, [⟨.sender, .error "Only the room creator can restart the game"⟩]) ∧
    setRaceDistance roomRacing "B" (some 500) =
      (roomRacing, [⟨.sender, .error "Only the room creator can set race distance"⟩])) :=
  ⟨by decide, authority_enforcement roomRacing "B" 1 (some 500) (by decide)⟩

/-- Claim C10: a host toggle-pause in the waiting, countdown or finished
state is a silent no-op: no room or player field changes and nothing at
all is emitted. -/
theorem togglePause_invalid_silent (room : Room) (sender : String) (now : Int)
    (h1 : room.creatorId = sender)
    (h2 : room.raceState = .waiting ∨ room.raceState = .countdown ∨
      room.raceState = .finished) :
    togglePause room sender now = (room, []) := by
  unfold togglePause
  rw [if_neg (fun hh => hh h1)]
  rcases h2 with h | h | h <;> rw [if_neg (by simp [h]), if_neg (by simp [h])]

/-- Witness for C10 at a concrete waiting room and its host. -/
theorem togglePause_invalid_silent_witness :
    roomWaiting.creatorId = "A" ∧ roomWaiting.raceState = RaceState.waiting ∧
    togglePause roomWaiting "A" 5 = (roomWaiting, []) :=
  ⟨by decide, by decide,
    togglePause_invalid_silent roomWaiting "A" 5 (by decide) (Or.inl (by decide))⟩

/-- Counterexample to C7 as stated: a host restart-game received while
racing does reset the players, obstacles, difficulty and race state. -/
theorem restartGame_unguarded_counterexample :
    roomMid.raceState = RaceState.racing ∧
    (restartGame roomMid "A" 99).1.raceState = RaceState.waiting ∧
    (restartGame roomMid "A" 99).1.obstacles = [] ∧
    (restartGame roomMid "A" 99).1.gameSpeed = BASE_GAME_SPEED ∧
    (findPlayer (restartGame roomMid "A" 99).1.players "A").map Player.distance = some 0 ∧
    (findPlayer roomMid.players "A").map Player.distance = some 500 := by decide

/-- Claim C7 (amended): a host restart-game is accepted in every race
state — there is no state-validity check — and always performs the full
reset back to the waiting grid. -/
theorem restartGame_resets (room : Room) (sender : String) (now : Int)
    (h : room.creatorId = sender) :
    (restartGame room sender now).1.raceState = RaceState.waiting ∧
    (restartGame room sender now).1.obstacles = [] ∧
    (restartGame room sender now).1.finishOrder = [] ∧
    (restartGame room sender now).1.gameSpeed = BASE_GAME_SPEED ∧
    (restartGame room sender now).1.roadWidth = BASE_ROAD_WIDTH ∧
    (restartGame room sender now).1.raceStartTime = none ∧
    (restartGame room sender now).1.lastSpawnWorldY = 0 ∧
    ∀ kv ∈ (restartGame room sender now).1.players,
      kv.2.finished = false ∧ kv.2.distance = 0 ∧ kv.2.stunned = false ∧
      kv.2.position = none := by
  unfold restartGame
  rw [if_neg (fun hh => hh h)]
  dsimp only
  refine ⟨rfl, rfl, rfl, rfl, rfl, rfl, rfl, ?_⟩
  intro kv hkv
  rw [List.mem_map] at hkv
  obtain ⟨x, hx, rfl⟩ := hkv
  exact ⟨rfl, rfl, rfl, rfl⟩

/-- Witness for the amended C7 at a concrete mid-race room and its host. -/
theorem restartGame_resets_witness :
    roomMid.creatorId = "A" ∧ roomMid.raceState = RaceState.racing ∧
    ((restartGame roomMid "A" 99).1.raceState = RaceState.waiting ∧
    (restartGame roomMid "A" 99).1.obstacles = [] ∧
    (restartGame roomMid "A" 99).1.finishOrder = [] ∧
    (restartGame roomMid "A" 99).1.gameSpeed = BASE_GAME_SPEED ∧
    (restartGame roomMid "A" 99).1.roadWidth = BASE_ROAD_WIDTH ∧
    (restartGame roomMid "A" 99).1.raceStartTime = none ∧
    (restartGame roomMid "A" 99).1.lastSpawnWorldY = 0 ∧
    ∀ kv ∈ (restartGame roomMid "A" 99).1.players,
      kv.2.finished = false ∧ kv.2.distance = 0 ∧ kv.2.stunned = false ∧
      kv.2.position = none) :=
  ⟨by decide, by decide, restartGame_resets roomMid "A" 99 (by decide)⟩

/-- Counterexample to C8 as stated: a second collision received 1 ms
later, while the player is still stunned, moves `stunnedUntil` from
13000 to 13001, so the observable stun state is not the same. -/
theorem collision_not_idempotent_counterexample :
    ((findPlayer (collision roomRacing "A" 11000).1.players "A").map
      fun p => (p.stunned, p.stunnedUntil)) = some (true, 13000) ∧
    (11001 : Int) < 13000 ∧
    ((findPlayer (collision (collision roomRacing "A" 11000).1 "A" 11001).1.players "A").map
      fun p => (p.stunned, p.stunnedUntil)) = some (true, 13001) ∧
    (13001 : Int) ≠ 13000 := by decide

/-- Claim C8 (amended): a collision for an existing player sets
`stunned := true` and `stunnedUntil := now + 2000`; re-applying the
handler at the same timestamp is idempotent, while a second collision at
a later timestamp refreshes `stunnedUntil` to the later `now + 2000`. -/
theorem collision_stun (room : Room) (sender : String) (now : Int) (p : Player)
    (h : findPlayer room.players sender = some p) :
    (collision room sender now).1.players =
      updatePlayer room.players sender { p with stunned := true, stunnedUntil := now + 2000 } ∧
    findPlayer (collision room sender now).1.players sender =
      some { p with stunned := true, stunnedUntil := now + 2000 } ∧
    (∀ now2 : Int,
      (collision (collision room sender now).1 sender now2).1.players =
        updatePlayer room.players sender
          { p with stunned := true, stunnedUntil := now2 + 2000 }) ∧
    (collision (collision room sender now).1 sender now).1 = (collision room sender now).1 := by
  have e1 : collision room sender now = ({ room with players := updatePlayer room.players sender { p with stunned := true, stunnedUntil := now + 2000 } }, []) := by
    unfold collision
    rw [h]
  have h2 : findPlayer (updatePlayer room.players sender { p with stunned := true, stunnedUntil := now + 2000 }) sender = some { p with stunned := true, stunnedUntil := now + 2000 } := by
    rw [findPlayer_updatePlayer_self, h]
    rfl
  have hover : ∀ (r : Room) (now2 : Int),
      findPlayer r.players sender =
        some { p with stunned := true, stunnedUntil := now + 2000 } →
      r.players = updatePlayer room.players sender
        { p with stunned := true, stunnedUntil := now + 2000 } →
      (collision r sender now2).1.players =
        updatePlayer room.players sender
          { p with stunned := true, stunnedUntil := now2 + 2000 } := by
    intro r now2 hr hrp
    unfold collision
    rw [hr]
    dsimp only
    rw [hrp, updatePlayer_updatePlayer]
  have hidem : ∀ (r : Room),
      findPlayer r.players sender =
        some { p with stunned := true, stunnedUntil := now + 2000 } →
      r.players = updatePlayer room.players sender
        { p with stunned := true, stunnedUntil := now + 2000 } →
      collision r sender now = (r, []) := by
    intro r hr hrp
    unfold collision
    rw [hr]
    dsimp only
    have hv : ({ { p with stunned := true, stunnedUntil := now + 2000 } with stunned := true, stunnedUntil := now + 2000 } : Player) = { p with stunned := true, stunnedUntil := now + 2000 } := rfl
    rw [hv, hrp, updatePlayer_updatePlayer, ← hrp]
  have hc1p : (collision room sender now).1.players =
      updatePlayer room.players sender
        { p with stunned := true, stunnedUntil := now + 2000 } := by
    rw [e1]
  refine ⟨hc1p, by rw [hc1p]; exact h2, ?_, ?_⟩
  · intro now2
    exact hover _ now2 (by rw [hc1p]; exact h2) hc1p
  · rw [hidem _ (by rw [hc1p]; exact h2) hc1p]

/-- Witness for the amended C8 at a concrete room. -/
theorem collision_stun_witness :
    findPlayer roomRacing.players "A" = some playerA ∧
    ((collision roomRacing "A" 11000).1.players =
      updatePlayer roomRacing.players "A"
        { playerA with stunned := true, stunnedUntil := 13000 } ∧
    findPlayer (collision roomRacing "A" 11000).1.players "A" =
      some { playerA with stunned := true, stunnedUntil := 13000 } ∧
    (∀ now2 : Int,
      (collision (collision roomRacing "A" 11000).1 "A" now2).1.players =
        updatePlayer roomRacing.players "A"
          { playerA with stunned := true, stunnedUntil := now2 + 2000 }) ∧
    (collision (collision roomRacing "A" 11000).1 "A" 11000).1 =
      (collision roomRacing "A" 11000).1) :=
  ⟨by decide, collision_stun roomRacing "A" 11000 playerA (by decide)⟩

/-- Counterexample to C5 as stated: on a tick in the finished state the
stale obstacle at worldY = 1000, far behind the trailer bound 200, is
not removed. -/
theorem despawn_skipped_after_finish_counterexample :
    roomFinished.raceState = RaceState.finished ∧
    roomFinished.members.length = 1 ∧
    roomFinished.players ≠ [] ∧
    (worldBounds roomFinished.players).2.1 +
      OBSTACLE_DESPAWN_DISTANCE * PIXELS_PER_METER = 200 ∧
    (tickRoom roomFinished 30000 randZero).1.obstacles =
      [{ id := 7, x := 1/2, worldY := 1000, distance := 500 }] ∧
    ¬ ((1000 : ℚ) < 200) := by decide

/-- Claim C5 (amended): the despawn filter runs only on racing ticks:
while racing every surviving obstacle is strictly below
`trailerWorldY + despawnBuffer`, but on waiting, paused and finished
ticks the obstacle list is left untouched, so leftovers persist after
the race finishes. -/
theorem obstacle_despawn (room : Room) (now : Int) (rand : Nat → ℚ)
    (hm : room.members.length ≠ 0) (hp : room.players ≠ []) :
    (room.raceState = .racing →
      ∀ obs ∈ (tickRoom room now rand).1.obstacles,
        obs.worldY < (worldBounds room.players).2.1 +
          OBSTACLE_DESPAWN_DISTANCE * PIXELS_PER_METER) ∧
    (room.raceState = .waiting ∨ room.raceState = .paused ∨ room.raceState = .finished →
      (tickRoom room now rand).1.obstacles = room.obstacles) := by
  constructor
  · intro hs obs hmem
    rw [tickRoom_not_countdown_eq room now rand hm (by simp [hs])] at hmem
    dsimp only at hmem
    rw [tickObstacles_obstacles_racing _ _ _ _ _
      (by rw [tickRacing_raceState]; exact hs)] at hmem
    rw [List.mem_filter] at hmem
    have := hmem.2
    rw [worldBounds_tickRacing] at this
    simpa using this
  · intro hs
    have hnc : room.raceState ≠ .countdown := by rcases hs with h | h | h <;> simp [h]
    have hnr : room.raceState ≠ .racing := by rcases hs with h | h | h <;> simp [h]
    rw [tickRoom_not_countdown_eq room now rand hm hnc]
    dsimp only
    rw [tickRacing_players_not_racing room now hnr,
      tickObstacles_not_racing _ _ _ _ _ hnr]

/-- Witness for the amended C5 at a concrete racing room. -/
theorem obstacle_despawn_witness :
    roomRacing.members.length ≠ 0 ∧ roomRacing.players ≠ [] ∧
    ((roomRacing.raceState = .racing →
      ∀ obs ∈ (tickRoom roomRacing 10033 randZero).1.obstacles,
        obs.worldY < (worldBounds roomRacing.players).2.1 +
          OBSTACLE_DESPAWN_DISTANCE * PIXELS_PER_METER) ∧
    (roomRacing.raceState = .waiting ∨ roomRacing.raceState = .paused ∨
        roomRacing.raceState = .finished →
      (tickRoom roomRacing 10033 randZero).1.obstacles = roomRacing.obstacles)) :=
  ⟨by decide, by decide, obstacle_despawn roomRacing 10033 randZero (by decide) (by decide)⟩

theorem tickRoom_fst_eq (room : Room) (now : Int) (rand : Nat → ℚ)
    (hm : room.members.length ≠ 0) :
    (tickRoom room now rand).1 =
      tickObstacles (tickRacing (tickCountdown room now).1 now) rand
        (worldBounds (tickRacing (tickCountdown room now).1 now).players).1
        (worldBounds (tickRacing (tickCountdown room now).1 now).players).2.1
        (worldBounds (tickRacing (tickCountdown room now).1 now).players).2.2 := by
  unfold tickRoom
  rw [if_neg hm]

theorem tickSnapshots_not_countdown (room : Room) (now : Int) (rand : Nat → ℚ)
    (hm : room.members.length ≠ 0) (hs : room.raceState ≠ .countdown) :
    tickSnapshots room now rand = [mkSnapshot (tickRoom room now rand).1 now] := by
  unfold tickSnapshots
  rw [tickRoom_not_countdown_eq room now rand hm hs]
  rfl

theorem tickRoom_raceStartTime_not_countdown (room : Room) (now : Int) (rand : Nat → ℚ)
    (hm : room.members.length ≠ 0) (hs : room.raceState ≠ .countdown) :
    (tickRoom room now rand).1.raceStartTime = room.raceStartTime := by
  rw [tickRoom_not_countdown_eq room now rand hm hs]
  dsimp only
  rw [tickObstacles_raceStartTime, tickRacing_raceStartTime]

/-- Claim C2: pausing at t0 while racing and resuming at t1 shifts
`raceStartTime` forward by the pause duration t1 - t0, so the race time
reported by the snapshot of the tick at the resume instant equals the
race time reported by the snapshot of the tick at the pause instant,
for every pause duration. -/
theorem pause_resume_time_neutral (room : Room) (sender : String) (s t0 t1 : Int)
    (hc : room.creatorId = sender) (hs : room.raceState = .racing)
    (hrst : room.raceStartTime = some s) (hspos : 0 < s) (hst0 : s ≤ t0) (h01 : t0 ≤ t1)
    (hm : room.members.length ≠ 0) :
    (togglePause room sender t0).1.raceState = RaceState.paused ∧
    (togglePause room sender t0).1.pausedAt = some t0 ∧
    (togglePause (togglePause room sender t0).1 sender t1).1.raceState = RaceState.racing ∧
    (togglePause (togglePause room sender t0).1 sender t1).1.raceStartTime =
      some (s + (t1 - t0)) ∧
    (∀ rand,
      (tickSnapshots (togglePause (togglePause room sender t0).1 sender t1).1 t1 rand).map
        Snapshot.raceTime = [t0 - s]) ∧
    (∀ rand, (tickSnapshots room t0 rand).map Snapshot.raceTime = [t0 - s]) := by
  have hnotne : ¬ room.creatorId ≠ sender := fun hh => hh hc
  have e1 : togglePause room sender t0 = ({ room with raceState := .paused, pausedAt := some t0 }, [⟨.toRoom, .racePaused "Race paused by host"⟩]) := by
    unfold togglePause
    rw [if_neg hnotne, if_pos hs]
  have e2 : togglePause (togglePause room sender t0).1 sender t1 = ({ room with raceState := .racing, pausedAt := none, raceStartTime := some (s + (t1 - t0)) }, [⟨.toRoom, .raceResumed "Race resumed!"⟩]) := by
    rw [e1]
    unfold togglePause
    dsimp only
    rw [if_neg hnotne, if_neg (by simp), if_pos rfl, hrst]
    rfl
  have hrt : ∀ (r : Room) (now : Int) (rand : Nat → ℚ), r.members.length ≠ 0 →
      r.raceState ≠ .countdown →
      (tickSnapshots r now rand).map Snapshot.raceTime =
        [raceTimeField r.raceStartTime now] := by
    intro r now rand hrm hrs
    rw [tickSnapshots_not_countdown r now rand hrm hrs]
    show [(mkSnapshot (tickRoom r now rand).1 now).raceTime] = _
    unfold mkSnapshot
    dsimp only
    rw [tickRoom_raceStartTime_not_countdown r now rand hrm hrs]
  refine ⟨by rw [e1], by rw [e1], by rw [e2], by rw [e2], ?_, ?_⟩
  · intro rand
    rw [hrt ((togglePause (togglePause room sender t0).1 sender t1).1) t1 rand
      (by rw [e2]; exact hm) (by rw [e2]; simp), e2]
    unfold raceTimeField
    dsimp only
    rw [if_neg (by omega)]
    have harith : t1 - (s + (t1 - t0)) = t0 - s := by omega
    rw [harith]
  · intro rand
    rw [hrt room t0 rand hm (by rw [hs]; simp), hrst]
    unfold raceTimeField
    dsimp only
    rw [if_neg (by omega)]

/-- Witness for C2: pause at 15000, resume at 40000, on the concrete
racing room started at 10000; both reported race times are 5000 ms. -/
theorem pause_resume_time_neutral_witness :
    roomRacing.creatorId = "A" ∧ roomRacing.raceState = RaceState.racing ∧
    roomRacing.raceStartTime = some 10000 ∧
    ((togglePause roomRacing "A" 15000).1.raceState = RaceState.paused ∧
    (togglePause roomRacing "A" 15000).1.pausedAt = some 15000 ∧
    (togglePause (togglePause roomRacing "A" 15000).1 "A" 40000).1.raceState =
      RaceState.racing ∧
    (togglePause (togglePause roomRacing "A" 15000).1 "A" 40000).1.raceStartTime =
      some (10000 + (40000 - 15000)) ∧
    (∀ rand,
      (tickSnapshots (togglePause (togglePause roomRacing "A" 15000).1 "A" 40000).1
        40000 rand).map Snapshot.raceTime = [15000 - 10000]) ∧
    (∀ rand, (tickSnapshots roomRacing 15000 rand).map Snapshot.raceTime =
      [15000 - 10000])) :=
  ⟨by decide, by decide, by decide,
    pause_resume_time_neutral roomRacing "A" 10000 15000 40000 (by decide) (by decide)
      (by decide) (by decide) (by decide) (by decide) (by decide)⟩

theorem tickRacing_gameSpeed_bounds (room : Room) (now : Int)
    (h : room.gameSpeed ≤ MAX_GAME_SPEED) :
    room.gameSpeed ≤ (tickRacing room now).gameSpeed ∧
    (tickRacing room now).gameSpeed ≤ MAX_GAME_SPEED := by
  unfold tickRacing
  by_cases hs : room.raceState = .racing
  · rw [if_pos hs]
    dsimp only
    split
    · split <;> dsimp only <;>
        exact ⟨le_min (le_add_of_nonneg_right
            (by norm_num [SPEED_INCREMENT_PER_TICK])) h, min_le_right _ _⟩
    · split <;> dsimp only <;> exact ⟨le_refl _, h⟩
  · rw [if_neg hs]
    exact ⟨le_refl _, h⟩

theorem tickRacing_roadWidth_bounds (room : Room) (now : Int)
    (h0 : 0 ≤ room.roadWidth) (h : room.roadWidth ≤ MAX_ROAD_WIDTH) :
    room.roadWidth ≤ (tickRacing room now).roadWidth ∧
    (tickRacing room now).roadWidth ≤ MAX_ROAD_WIDTH ∧
    0 ≤ (tickRacing room now).roadWidth := by
  have hexp : room.roadWidth ≤ room.roadWidth * ROAD_EXPANSION_RATE := by
    have : room.roadWidth * 1 ≤ room.roadWidth * ROAD_EXPANSION_RATE := by
      apply mul_le_mul_of_nonneg_left _ h0
      norm_num [ROAD_EXPANSION_RATE]
    simpa using this
  have hnn : 0 ≤ room.roadWidth * ROAD_EXPANSION_RATE :=
    mul_nonneg h0 (by norm_num [ROAD_EXPANSION_RATE])
  unfold tickRacing
  by_cases hs : room.raceState = .racing
  · rw [if_pos hs]
    dsimp only
    split <;> dsimp only <;> split <;> dsimp only
    all_goals first
      | exact ⟨le_refl _, h, h0⟩
      | exact ⟨le_min hexp h, min_le_right _ _, le_min hnn (le_trans h0 h)⟩
  · rw [if_neg hs]
    exact ⟨le_refl _, h, h0⟩

theorem tickCountdown_transition (room : Room) (now : Int)
    (hcd : room.raceState = .countdown)
    (hel : now - room.countdownStartTime.getD 0 ≥ COUNTDOWN_SECONDS * 1000) :
    (tickCountdown room now).1.raceState = RaceState.racing ∧
    (tickCountdown room now).1.gameSpeed = BASE_GAME_SPEED ∧
    (tickCountdown room now).1.raceStartTime = some now := by
  unfold tickCountdown
  rw [if_pos hcd]
  dsimp only
  rw [if_pos hel]
  exact ⟨rfl, rfl, rfl⟩

/-- Claim C6: while racing, gameSpeed and roadWidth are non-decreasing
across a tick; a tick keeps gameSpeed at or below MAX_GAME_SPEED and
roadWidth between 0 and MAX_ROAD_WIDTH in every state; and the
countdown-to-racing transition of the tick resets gameSpeed to
BASE_GAME_SPEED. -/
theorem difficulty_caps (room : Room) (now : Int) (rand : Nat → ℚ)
    (h0 : 0 ≤ room.roadWidth) (hw : room.roadWidth ≤ MAX_ROAD_WIDTH)
    (hg : room.gameSpeed ≤ MAX_GAME_SPEED) :
    (room.raceState = .racing →
      room.gameSpeed ≤ (tickRoom room now rand).1.gameSpeed ∧
      room.roadWidth ≤ (tickRoom room now rand).1.roadWidth) ∧
    ((tickRoom room now rand).1.gameSpeed ≤ MAX_GAME_SPEED ∧
      (tickRoom room now rand).1.roadWidth ≤ MAX_ROAD_WIDTH ∧
      0 ≤ (tickRoom room now rand).1.roadWidth) ∧
    (room.raceState = .countdown →
      now - room.countdownStartTime.getD 0 ≥ COUNTDOWN_SECONDS * 1000 →
      (tickCountdown room now).1.raceState = RaceState.racing ∧
      (tickCountdown room now).1.gameSpeed = BASE_GAME_SPEED) := by
  by_cases hm : room.members.length = 0
  · have heq : (tickRoom room now rand).1 = room := by
      unfold tickRoom
      rw [if_pos hm]
    rw [heq]
    exact ⟨fun _ => ⟨le_refl _, le_refl _⟩, ⟨hg, hw, h0⟩,
      fun hcd hel => ⟨(tickCountdown_transition room now hcd hel).1,
        (tickCountdown_transition room now hcd hel).2.1⟩⟩
  · rw [tickRoom_fst_eq room now rand hm]
    have hr1w : (tickCountdown room now).1.roadWidth = room.roadWidth :=
      tickCountdown_roadWidth room now
    have hr1g : (tickCountdown room now).1.gameSpeed ≤ MAX_GAME_SPEED := by
      rcases tickCountdown_gameSpeed_cases room now with h | h <;> rw [h]
      · exact hg
      · norm_num [BASE_GAME_SPEED, MAX_GAME_SPEED]
    have hgb := tickRacing_gameSpeed_bounds (tickCountdown room now).1 now hr1g
    have hwb := tickRacing_roadWidth_bounds (tickCountdown room now).1 now
      (by rw [hr1w]; exact h0) (by rw [hr1w]; exact hw)
    refine ⟨?_, ?_, fun hcd hel => ⟨(tickCountdown_transition room now hcd hel).1,
      (tickCountdown_transition room now hcd hel).2.1⟩⟩
    · intro hs
      have hnc : tickCountdown room now = (room, []) :=
        tickCountdown_not_countdown room now (by rw [hs]; simp)
      rw [hnc] at hgb hwb ⊢
      rw [tickObstacles_gameSpeed, tickObstacles_roadWidth]
      exact ⟨hgb.1, hwb.1⟩
    · rw [tickObstacles_gameSpeed, tickObstacles_roadWidth]
      exact ⟨hgb.2, hwb.2.1, hwb.2.2⟩

/-- Witness for C6 at the concrete racing room. -/
theorem difficulty_caps_witness :
    (0 : ℚ) ≤ roomRacing.roadWidth ∧ roomRacing.roadWidth ≤ MAX_ROAD_WIDTH ∧
    roomRacing.gameSpeed ≤ MAX_GAME_SPEED ∧
    ((roomRacing.raceState = .racing →
      roomRacing.gameSpeed ≤ (tickRoom roomRacing 10033 randZero).1.gameSpeed ∧
      roomRacing.roadWidth ≤ (tickRoom roomRacing 10033 randZero).1.roadWidth) ∧
    ((tickRoom roomRacing 10033 randZero).1.gameSpeed ≤ MAX_GAME_SPEED ∧
      (tickRoom roomRacing 10033 randZero).1.roadWidth ≤ MAX_ROAD_WIDTH ∧
      0 ≤ (tickRoom roomRacing 10033 randZero).1.roadWidth) ∧
    (roomRacing.raceState = .countdown →
      10033 - roomRacing.countdownStartTime.getD 0 ≥ COUNTDOWN_SECONDS * 1000 →
      (tickCountdown roomRacing 10033).1.raceState = RaceState.racing ∧
      (tickCountdown roomRacing 10033).1.gameSpeed = BASE_GAME_SPEED)) :=
  ⟨by decide, by decide, by decide,
    difficulty_caps roomRacing 10033 randZero (by decide) (by decide) (by decide)⟩

theorem findPlayer_mem (ps : List (String × Player)) (id : String) (p : Player)
    (h : findPlayer ps id = some p) : (id, p) ∈ ps := by
  induction ps with
  | nil => exact absurd h (by simp [findPlayer])
  | cons kv rest ih =>
    obtain ⟨k, q⟩ := kv
    by_cases hk : k = id
    · subst hk
      rw [findPlayer, if_pos rfl, Option.some.injEq] at h
      subst h
      exact List.mem_cons_self _ _
    · rw [findPlayer, if_neg hk] at h
      exact List.mem_cons_of_mem _ (ih h)

theorem mem_updatePlayer (ps : List (String × Player)) (id : String) (v : Player)
    (kv : String × Player) (hkv : kv ∈ updatePlayer ps id v) :
    kv.2 = v ∨ kv ∈ ps := by
  induction ps with
  | nil => exact absurd hkv (by simp [updatePlayer])
  | cons kv0 rest ih =>
    obtain ⟨k, q⟩ := kv0
    by_cases hk : k = id
    · subst hk
      rw [updatePlayer, if_pos rfl] at hkv
      rcases List.mem_cons.mp hkv with heq | hmem
      · exact Or.inl (by rw [heq])
      · rcases ih hmem with hl | hr
        · exact Or.inl hl
        · exact Or.inr (List.mem_cons_of_mem _ hr)
    · rw [updatePlayer, if_neg hk] at hkv
      rcases List.mem_cons.mp hkv with heq | hmem
      · exact Or.inr (by rw [heq]; exact List.mem_cons_self _ _)
      · rcases ih hmem with hl | hr
        · exact Or.inl hl
        · exact Or.inr (List.mem_cons_of_mem _ hr)

/-- Counterexample to C4 as stated: a join accepted while the room is
finished adds a player with `finished = false` while leaving the state
finished, so the claimed invariant is not preserved by that operation. -/
theorem allFinishedInv_join_counterexample :
    allFinishedInv roomFinished ∧
    (joinRoom (some roomFinished) "B" "ROOM" "Bob" 30000).1 = some roomJoinedAfterFinish ∧
    roomJoinedAfterFinish.raceState = RaceState.finished ∧
    (findPlayer roomJoinedAfterFinish.players "B").map Player.finished = some false ∧
    ¬ allFinishedInv roomJoinedAfterFinish := by decide

/-- Claim C4 (amended): the invariant `raceState = finished → every
player finished` is preserved by set-race-distance, start-race,
toggle-pause, player-update, restart-game, collision, disconnect and the
tick; joins are rejected while countdown, racing or paused, and a join
accepted while waiting preserves the invariant — but a join is also
accepted while finished, and that single case adds an unfinished player,
breaking the invariant (restored only by restart). -/
theorem allFinishedInv_preserved (room : Room) (h : allFinishedInv room) :
    (∀ s d, allFinishedInv (setRaceDistance room s d).1) ∧
    (∀ s n, allFinishedInv (startRace room s n).1) ∧
    (∀ s n, allFinishedInv (togglePause room s n).1) ∧
    (∀ s n data, allFinishedInv (playerUpdate room s n data).1) ∧
    (∀ s n, allFinishedInv (restartGame room s n).1) ∧
    (∀ s n, allFinishedInv (collision room s n).1) ∧
    (∀ s nm r', (disconnect room s nm).1 = some r' → allFinishedInv r') ∧
    (∀ n rand, allFinishedInv (tickRoom room n rand).1) ∧
    (room.raceState = .countdown ∨ room.raceState = .racing ∨ room.raceState = .paused →
      ∀ s rc nm n, rc ≠ "" → nm ≠ "" →
        joinRoom (some room) s rc nm n =
          (some room, [⟨.sender, .error "Race already in progress. Wait for it to finish."⟩])) ∧
    (room.raceState = .waiting →
      ∀ s rc nm n r', (joinRoom (some room) s rc nm n).1 = some r' → allFinishedInv r') ∧
    (room.raceState = .finished →
      ∀ s rc nm n, rc ≠ "" → nm ≠ "" →
        ∃ r', (joinRoom (some room) s rc nm n).1 = some r' ∧
          r'.members = room.members ++ [⟨s, nm⟩] ∧ r'.raceState = RaceState.finished) := by
  refine ⟨?_, ?_, ?_, ?_, ?_, ?_, ?_, ?_, ?_, ?_, ?_⟩
  · intro s d
    unfold setRaceDistance
    dsimp only
    repeat' split
    all_goals exact fun hfin kv hkv => h hfin kv hkv
  · intro s n
    unfold startRace
    repeat' split
    all_goals first
      | exact fun hfin kv hkv => h hfin kv hkv
      | exact fun hfin => by simp at hfin
  · intro s n
    unfold togglePause
    try dsimp only
    repeat' split
    all_goals first
      | exact fun hfin kv hkv => h hfin kv hkv
      | exact fun hfin => by simp at hfin
  · intro s n data
    unfold playerUpdate
    dsimp only
    split
    · exact h
    · next player hfp =>
      split
      · next hguard =>
        split
        · next hfinish =>
          split
          · next hall =>
            intro _ kv hkv
            exact List.all_eq_true.mp hall kv hkv
          · next =>
            intro hfin
            exact absurd (hguard.1.symm.trans hfin) (by decide)
        · next =>
          intro hfin
          exact absurd (hguard.1.symm.trans hfin) (by decide)
      · exact h
  · intro s n
    unfold restartGame
    try dsimp only
    repeat' split
    all_goals first
      | exact fun hfin kv hkv => h hfin kv hkv
      | exact fun hfin => by simp at hfin
  · intro s n
    unfold collision
    try dsimp only
    split
    · exact h
    · next p hfp =>
      intro hfin kv hkv
      rcases mem_updatePlayer _ _ _ kv hkv with heq | hmem
      · rw [heq]
        exact h hfin (s, p) (findPlayer_mem _ _ _ hfp)
      · exact h hfin kv hmem
  · intro s nm r' heq
    unfold disconnect at heq
    dsimp only at heq
    split at heq
    · exact absurd heq (by simp)
    · rw [Option.some.injEq] at heq
      subst heq
      intro hfin kv hkv
      exact h hfin kv (List.mem_filter.mp hkv).1
  · intro n rand
    by_cases hm : room.members.length = 0
    · unfold tickRoom
      rw [if_pos hm]
      exact h
    · rw [tickRoom_fst_eq room n rand hm]
      intro hfin kv hkv
      rw [tickObstacles_raceState, tickRacing_raceState] at hfin
      rw [tickObstacles_players] at hkv
      rcases tickCountdown_raceState_cases room n with hcs | hcs
      · have hroom : room.raceState = .finished := hcs ▸ hfin
        have hnc : tickCountdown room n = (room, []) :=
          tickCountdown_not_countdown room n (by rw [hroom]; simp)
        rw [hnc] at hkv
        rw [tickRacing_players_not_racing room n (by rw [hroom]; simp)] at hkv
        exact h hroom kv hkv
      · rw [hcs] at hfin
        exact absurd hfin (by decide)
  · intro hst s rc nm n hrc hnm
    unfold joinRoom
    rw [if_neg (by simp [hrc, hnm])]
    dsimp only
    rw [if_pos (by rcases hst with hh | hh | hh <;> simp [hh])]
  · intro hw s rc nm n r' heq
    unfold joinRoom at heq
    dsimp only at heq
    split at heq
    · rw [Option.some.injEq] at heq
      subst heq
      exact h
    · split at heq
      · rw [Option.some.injEq] at heq
        subst heq
        exact h
      · rw [Option.some.injEq] at heq
        subst heq
        intro hfin
        exact absurd (hw.symm.trans hfin) (by decide)
  · intro hfin s rc nm n hrc hnm
    unfold joinRoom
    rw [if_neg (by simp [hrc, hnm])]
    dsimp only
    rw [if_neg (by rw [hfin]; simp)]
    exact ⟨_, rfl, rfl, hfin⟩

/-- Witness for the amended C4 at the concrete finished room. -/
theorem allFinishedInv_preserved_witness :
    allFinishedInv roomFinished ∧
    ((∀ s d, allFinishedInv (setRaceDistance roomFinished s d).1) ∧
    (∀ s n, allFinishedInv (startRace roomFinished s n).1) ∧
    (∀ s n, allFinishedInv (togglePause roomFinished s n).1) ∧
    (∀ s n data, allFinishedInv (playerUpdate roomFinished s n data).1) ∧
    (∀ s n, allFinishedInv (restartGame roomFinished s n).1) ∧
    (∀ s n, allFinishedInv (collision roomFinished s n).1) ∧
    (∀ s nm r', (disconnect roomFinished s nm).1 = some r' → allFinishedInv r') ∧
    (∀ n rand, allFinishedInv (tickRoom roomFinished n rand).1) ∧
    (roomFinished.raceState = .countdown ∨ roomFinished.raceState = .racing ∨
        roomFinished.raceState = .paused →
      ∀ s rc nm n, rc ≠ "" → nm ≠ "" →
        joinRoom (some roomFinished) s rc nm n =
          (some roomFinished,
            [⟨.sender, .error "Race already in progress. Wait for it to finish."⟩])) ∧
    (roomFinished.raceState = .waiting →
      ∀ s rc nm n r', (joinRoom (some roomFinished) s rc nm n).1 = some r' →
        allFinishedInv r') ∧
    (roomFinished.raceState = .finished →
      ∀ s rc nm n, rc ≠ "" → nm ≠ "" →
        ∃ r', (joinRoom (some roomFinished) s rc nm n).1 = some r' ∧
          r'.members = roomFinished.members ++ [⟨s, nm⟩] ∧
          r'.raceState = RaceState.finished)) :=
  ⟨by decide, allFinishedInv_preserved roomFinished (by decide)⟩

theorem finishOk_congr (ps1 ps2 : List (String × Player)) (id : String) (i : Nat)
    (h : findPlayer ps1 id = findPlayer ps2 id) : finishOk ps1 id i = finishOk ps2 id i := by
  unfold finishOk
  rw [h]

theorem finishInv_playerUpdate (room : Room) (hInv : finishInv room) (s : String) (n : Int)
    (data : UpdData) : finishInv (playerUpdate room s n data).1 := by
  unfold playerUpdate
  dsimp only
  split
  · exact hInv
  · next player hfp =>
    split
    · next hguard =>
      have hnotin : ∀ i (hi : i < room.finishOrder.length),
          room.finishOrder.get ⟨i, hi⟩ ≠ s := by
        intro i hi heq
        have hok := hInv.2 i hi
        rw [heq] at hok
        unfold finishOk at hok
        rw [hfp] at hok
        dsimp only at hok
        rw [hguard.2] at hok
        simp at hok
      have hs_notin : s ∉ room.finishOrder := by
        intro hmem
        obtain ⟨⟨i, hi⟩, hget⟩ := List.get_of_mem hmem
        exact hnotin i hi hget
      split
      · next hfinish =>
        have hmain : finishInv { room with
            players := updatePlayer room.players s { player with
              x := data.x
              worldY := data.worldY.getD player.worldY
              distance := data.distance
              stunned := data.stunned.getD false
              finished := true
              finishTime := some (n - room.raceStartTime.getD 0)
              position := some (room.finishOrder ++ [s]).length }
            finishOrder := room.finishOrder ++ [s] } := by
          unfold finishInv
          dsimp only
          constructor
          · rw [List.nodup_append]
            refine ⟨hInv.1, List.nodup_singleton s, fun a ha hb => ?_⟩
            rw [List.mem_singleton] at hb
            subst hb
            exact hs_notin ha
          · intro i hi
            by_cases hlt : i < room.finishOrder.length
            · have hget : (room.finishOrder ++ [s]).get ⟨i, hi⟩ =
                  room.finishOrder.get ⟨i, hlt⟩ := by
                rw [List.get_eq_getElem, List.get_eq_getElem]
                exact List.getElem_append_left hlt
              rw [hget, finishOk_congr _ room.players _ _
                (findPlayer_updatePlayer_ne _ _ _ _ (hnotin i hlt))]
              exact hInv.2 i hlt
            · have hlen : i < room.finishOrder.length + 1 := by
                have := hi
                rw [List.length_append, List.length_singleton] at this
                exact this
              have hieq : i = room.finishOrder.length := by omega
              subst hieq
              have hget : (room.finishOrder ++ [s]).get ⟨room.finishOrder.length, hi⟩ = s := by
                rw [List.get_eq_getElem]
                simp
              rw [hget]
              unfold finishOk
              rw [findPlayer_updatePlayer_self, hfp]
              simp
        split
        · exact hmain
        · exact hmain
      · next =>
        unfold finishInv
        dsimp only
        refine ⟨hInv.1, fun i hi => ?_⟩
        rw [finishOk_congr _ room.players _ _
          (findPlayer_updatePlayer_ne _ _ _ _ (hnotin i hi))]
        exact hInv.2 i hi
    · exact hInv

theorem finishInv_applyPlayerUpdates :
    ∀ (evs : List (String × Int × UpdData)) (room : Room), finishInv room →
      finishInv (applyPlayerUpdates room evs)
  | [], _, h => h
  | e :: evs, room, h =>
    finishInv_applyPlayerUpdates evs _ (finishInv_playerUpdate room h e.1 e.2.1 e.2.2)

/-- Claim C3: an accepted player-update while racing whose sender is
unfinished and reports distance at least raceDistance marks the player
finished with finishTime = now - raceStartTime, appends it to
finishOrder, and assigns position = new length of finishOrder; and the
finishing-order invariant - positions are exactly 1..k in assignment
order, without gaps or repeats - is preserved across any sequence of
player-update events. -/
theorem playerUpdate_finish_order (room : Room) (hInv : finishInv room) :
    (∀ evs, finishInv (applyPlayerUpdates room evs)) ∧
    (∀ (s : String) (n : Int) (data : UpdData) (p : Player) (st : Int),
      room.raceState = .racing →
      findPlayer room.players s = some p →
      p.finished = false →
      data.distance ≥ room.raceDistance →
      room.raceStartTime = some st →
      (playerUpdate room s n data).1.finishOrder = room.finishOrder ++ [s] ∧
      (playerUpdate room s n data).1.finishOrder.length = room.finishOrder.length + 1 ∧
      findPlayer (playerUpdate room s n data).1.players s =
        some { p with
          x := data.x
          worldY := data.worldY.getD p.worldY
          distance := data.distance
          stunned := data.stunned.getD false
          finished := true
          finishTime := some (n - st)
          position := some (room.finishOrder.length + 1) }) := by
  refine ⟨fun evs => finishInv_applyPlayerUpdates evs room hInv, ?_⟩
  intro s n data p st hrace hfp hnf hdist hst
  unfold playerUpdate
  rw [hfp]
  dsimp only
  rw [if_pos ⟨hrace, hnf⟩, if_pos ⟨hdist, hnf⟩, hst]
  have hfind : findPlayer (updatePlayer room.players s { p with
      x := data.x
      worldY := data.worldY.getD p.worldY
      distance := data.distance
      stunned := data.stunned.getD false
      finished := true
      finishTime := some (n - (some st : Option Int).getD 0)
      position := some (room.finishOrder ++ [s]).length }) s =
      some { p with
        x := data.x
        worldY := data.worldY.getD p.worldY
        distance := data.distance
        stunned := data.stunned.getD false
        finished := true
        finishTime := some (n - st)
        position := some (room.finishOrder.length + 1) } := by
    rw [findPlayer_updatePlayer_self, hfp]
    simp
  split
  · exact ⟨rfl, by simp, hfind⟩
  · exact ⟨rfl, by simp, hfind⟩

/-- Witness for C3: player A of the concrete racing room reports 1000 m
with race distance 1000 and receives position 1. -/
theorem playerUpdate_finish_order_witness :
    finishInv roomRacing ∧
    (∀ evs, finishInv (applyPlayerUpdates roomRacing evs)) ∧
    ((playerUpdate roomRacing "A" 20000
        { x := 1/2, worldY := some (-2000), distance := 1000, stunned := some false
          }).1.finishOrder = roomRacing.finishOrder ++ ["A"] ∧
    (playerUpdate roomRacing "A" 20000
        { x := 1/2, worldY := some (-2000), distance := 1000, stunned := some false
          }).1.finishOrder.length = roomRacing.finishOrder.length + 1 ∧
    findPlayer (playerUpdate roomRacing "A" 20000
        { x := 1/2, worldY := some (-2000), distance := 1000, stunned := some false
          }).1.players "A" =
      some { playerA with
        x := 1/2
        worldY := -2000
        distance := 1000
        stunned := false
        finished := true
        finishTime := some (20000 - 10000)
        position := some (roomRacing.finishOrder.length + 1) }) :=
  ⟨by decide, (playerUpdate_finish_order roomRacing (by decide)).1,
    (playerUpdate_finish_order roomRacing (by decide)).2 "A" 20000
      { x := 1/2, worldY := some (-2000), distance := 1000, stunned := some false }
      playerA 10000 (by decide) (by decide) (by decide) (by decide) (by decide)⟩

theorem tickRacing_lastSpawnWorldY (room : Room) (now : Int) :
    (tickRacing room now).lastSpawnWorldY = room.lastSpawnWorldY := by
  unfold tickRacing; dsimp only; repeat' split
  all_goals rfl

theorem spawnFuel_init (mn : ℚ) :
    spawnFuel (mn - OBSTACLE_SPAWN_INTERVAL * PIXELS_PER_METER)
      (mn - SPAWN_AHEAD_DISTANCE * PIXELS_PER_METER)
      (OBSTACLE_SPAWN_INTERVAL * PIXELS_PER_METER) = 5 := by
  unfold spawnFuel OBSTACLE_SPAWN_INTERVAL SPAWN_AHEAD_DISTANCE PIXELS_PER_METER
  have h1 : (mn - 50 * 2 - (mn - 300 * 2)) / (50 * 2) = ((5 : Int) : ℚ) := by
    norm_num
  rw [h1, Int.ceil_intCast]
  rfl

/-- The fuel computed by `spawnFuel` always suffices: after the loop the
cursor is at or below the threshold, exactly as when the JS while loop
exits. -/
theorem spawnLoop_cursor_le (rand : Nat → ℚ) (threshold step : ℚ) (hstep : 0 < step) :
    ∀ (fuel : Nat) (cursor : ℚ) (nid ri : Nat),
      spawnFuel cursor threshold step ≤ fuel →
      (spawnLoop rand threshold step fuel cursor nid ri).1 ≤ threshold := by
  intro fuel
  induction fuel with
  | zero =>
    intro cursor nid ri hf
    unfold spawnLoop
    dsimp only
    unfold spawnFuel at hf
    rw [Nat.le_zero, Int.toNat_eq_zero] at hf
    by_contra hc
    push_neg at hc
    have hpos : 0 < (cursor - threshold) / step := div_pos (by linarith) hstep
    have h1 := Int.ceil_pos.mpr hpos
    omega
  | succ fuel ih =>
    intro cursor nid ri hf
    unfold spawnLoop
    dsimp only
    split
    · next hgt =>
      apply ih
      have hne : step ≠ 0 := ne_of_gt hstep
      have heq : (cursor - step - threshold) / step = (cursor - threshold) / step - 1 := by
        field_simp
        ring
      have hpos : 0 < (cursor - threshold) / step := div_pos (by linarith) hstep
      have h1 := Int.ceil_pos.mpr hpos
      unfold spawnFuel at hf ⊢
      rw [heq, Int.ceil_sub_one]
      omega
    · next hngt =>
      exact le_of_not_lt hngt

/-- Counterexample to C9 as stated: after the spawn cursor has been
initialized, driving the only players backward to worldY = 1000 leaves
no obstacle within spawnAheadDistance (600 px) ahead of the leader —
all obstacles sit at worldY -100..-600, outside [400, 1000]. -/
theorem obstacle_window_counterexample :
    roomBackward.raceState = RaceState.racing ∧
    roomBackward.members.length ≠ 0 ∧
    roomBackward.players ≠ [] ∧
    roomBackward.lastSpawnWorldY = -600 ∧
    (worldBounds roomBackward.players).1 = 1000 ∧
    SPAWN_AHEAD_DISTANCE * PIXELS_PER_METER = 600 ∧
    ((tickRoom roomBackward 10066 randZero).1.obstacles.filter fun obs =>
      decide (400 ≤ obs.worldY ∧ obs.worldY ≤ 1000)) = [] ∧
    (tickRoom roomBackward 10066 randZero).1.obstacles ≠ [] := by decide

/-- Claim C9 (amended): on a racing tick with players, after spawn and
despawn every obstacle satisfies worldY < trailerWorldY + despawnBuffer;
and on the tick that initializes the spawn cursor (lastSpawnWorldY = 0)
the leader gets an obstacle within spawnAheadDistance ahead.  (The
leader-proximity guarantee does not persist on later ticks when players
move backward — see the counterexample.) -/
theorem obstacle_window (room : Room) (now : Int) (rand : Nat → ℚ)
    (hm : room.members.length ≠ 0) (hp : room.players ≠ [])
    (hs : room.raceState = .racing) :
    (∀ obs ∈ (tickRoom room now rand).1.obstacles,
      obs.worldY < (worldBounds room.players).2.1 +
        OBSTACLE_DESPAWN_DISTANCE * PIXELS_PER_METER) ∧
    (room.lastSpawnWorldY = 0 →
      ∃ obs ∈ (tickRoom room now rand).1.obstacles,
        (worldBounds room.players).1 - SPAWN_AHEAD_DISTANCE * PIXELS_PER_METER ≤
          obs.worldY ∧
        obs.worldY < (worldBounds room.players).1) := by
  have hrace2 : (tickRacing room now).raceState = .racing := by
    rw [tickRacing_raceState]; exact hs
  constructor
  · intro obs hmem
    rw [tickRoom_not_countdown_eq room now rand hm (by rw [hs]; simp)] at hmem
    dsimp only at hmem
    rw [tickObstacles_obstacles_racing _ _ _ _ _ hrace2] at hmem
    rw [List.mem_filter] at hmem
    have := hmem.2
    rw [worldBounds_tickRacing] at this
    simpa using this
  · intro hcur
    rw [tickRoom_not_countdown_eq room now rand hm (by rw [hs]; simp)]
    dsimp only
    rw [tickObstacles_obstacles_racing _ _ _ _ _ hrace2]
    rw [worldBounds_tickRacing]
    rw [if_pos ⟨by rw [tickRacing_lastSpawnWorldY]; exact hcur,
      worldBounds_has _ hp⟩]
    rw [spawnFuel_init]
    rw [show (5 : Nat) = 4 + 1 from rfl, spawnLoop]
    rw [if_pos (by
      unfold OBSTACLE_SPAWN_INTERVAL SPAWN_AHEAD_DISTANCE PIXELS_PER_METER
      norm_num)]
    dsimp only
    refine ⟨_, List.mem_filter.mpr ⟨List.mem_append_right _ (List.mem_cons_self _ _),
      decide_eq_true ?_⟩, ?_, ?_⟩
    · show (worldBounds room.players).1 - OBSTACLE_SPAWN_INTERVAL * PIXELS_PER_METER -
        OBSTACLE_SPAWN_INTERVAL * PIXELS_PER_METER <
        (worldBounds room.players).2.1 + OBSTACLE_DESPAWN_DISTANCE * PIXELS_PER_METER
      have hle := worldBounds_min_le_max room.players hp
      unfold OBSTACLE_SPAWN_INTERVAL OBSTACLE_DESPAWN_DISTANCE PIXELS_PER_METER
      linarith
    · show (worldBounds room.players).1 - SPAWN_AHEAD_DISTANCE * PIXELS_PER_METER ≤
        (worldBounds room.players).1 - OBSTACLE_SPAWN_INTERVAL * PIXELS_PER_METER -
        OBSTACLE_SPAWN_INTERVAL * PIXELS_PER_METER
      unfold OBSTACLE_SPAWN_INTERVAL SPAWN_AHEAD_DISTANCE PIXELS_PER_METER
      linarith
    · show (worldBounds room.players).1 - OBSTACLE_SPAWN_INTERVAL * PIXELS_PER_METER -
        OBSTACLE_SPAWN_INTERVAL * PIXELS_PER_METER < (worldBounds room.players).1
      unfold OBSTACLE_SPAWN_INTERVAL PIXELS_PER_METER
      linarith

/-- Witness for the amended C9 at the concrete racing room on its first
spawning tick. -/
theorem obstacle_window_witness :
    roomRacing.members.length ≠ 0 ∧ roomRacing.players ≠ [] ∧
    roomRacing.raceState = .racing ∧ roomRacing.lastSpawnWorldY = 0 ∧
    ((∀ obs ∈ (tickRoom roomRacing 10033 randZero).1.obstacles,
      obs.worldY < (worldBounds roomRacing.players).2.1 +
        OBSTACLE_DESPAWN_DISTANCE * PIXELS_PER_METER) ∧
    (roomRacing.lastSpawnWorldY = 0 →
      ∃ obs ∈ (tickRoom roomRacing 10033 randZero).1.obstacles,
        (worldBounds roomRacing.players).1 - SPAWN_AHEAD_DISTANCE * PIXELS_PER_METER ≤
          obs.worldY ∧
        obs.worldY < (worldBounds roomRacing.players).1)) :=
  ⟨by decide, by decide, by decide, by decide,
    obstacle_window roomRacing 10033 randZero (by decide) (by decide) (by decide)⟩

end NeonRacer
